import Mathlib

/-!
Shallow embedding of the tile-provider resolution and fallback logic of the
climetrica front end (file `src/unnamed/part_000`…`part_006`; the fallback state
machine, availability prober, registry swap, series aggregation live in
`src/unnamed/part_005`, a React dashboard component; the persistence helper in
`src/climetrica-frontend/src/api/Save_climate_data_helper.js`).

Numbers: tile/date/matrix indices are JS small integers, modelled as `Nat`
(`Int` for tile columns/rows which may go negative at the antimeridian edge
after the `±1` neighbour offsets).  Fractions (probe success, aggregated
means) are modelled as `ℚ`; JS `x/0 = NaN` is modelled as `Option ℚ = none`.
The clock (`new Date()`) is external: the five candidate dates the source
computes from it are taken as an input list of date strings.
-/

namespace Climetrica

/-! ### Data model: variable definitions (LAYER_DEFS) and fallback state

A WMTS variable definition carries the fields the `tileerror` fallback handler
reads: the GIBS layer id, image format, declared tile matrix set, the list of
candidate dates (`tryDates`, built as today minus 0..4 days), and the ordered
alternate-provider list `alt`. -/

/-- An entry of a variable's `alt` list.  The source dispatches on
`candidate.type` being one of exactly these three strings. -/
inductive AltProvider where
  /-- `{ type: 'openweathermap', layer: ... }` -/
  | openweathermap (layer : String)
  /-- `{ type: 'rainviewer' }` -/
  | rainviewer
  /-- `{ type: 'xyz', url: ... }` -/
  | xyz (url : String)
deriving DecidableEq, Repr

/-- The fields of a `type: "wmts"` entry of `LAYER_DEFS` that the fallback
machinery reads, plus the computed `tryDates` list (clock-dependent in the
source: `getDateOffsetFormatted(i)` for `i = 0..4`). -/
structure WmtsCfg where
  layer : String
  format : String
  tileMatrixSet : String
  tryDates : List String
  alt : List AltProvider
deriving DecidableEq, Repr

/-- `const matrixCandidates = [cfg.tileMatrixSet, 'GoogleMapsCompatible_Level8',
'GoogleMapsCompatible_Level7'];` — the handler's closed-over candidate list. -/
def matrixCandidates (cfg : WmtsCfg) : List String :=
  [cfg.tileMatrixSet, "GoogleMapsCompatible_Level8", "GoogleMapsCompatible_Level7"]

/-- `makeUrlWithMatrix(date, matrix)` from the source:
```
(date, matrix) => `https://gibs.earthdata.nasa.gov/wmts/epsg3857/best/${cfg.layer}/default/${date}/${matrix}/{z}/{y}/{x}.${cfg.format}`
``` -/
def makeUrlWithMatrix (cfg : WmtsCfg) (date matrix : String) : String :=
  "https://gibs.earthdata.nasa.gov/wmts/epsg3857/best/" ++ cfg.layer ++ "/default/"
    ++ date ++ "/" ++ matrix ++ "/{z}/{y}/{x}." ++ cfg.format

/-- OpenWeatherMap tile URL template:
`https://tile.openweathermap.org/map/${layer}/{z}/{x}/{y}.png?appid=${key}`. -/
def owmTileUrl (layer key : String) : String :=
  "https://tile.openweathermap.org/map/" ++ layer ++ "/{z}/{x}/{y}.png?appid=" ++ key

/-- The mutable per-layer fallback counters the source bolts onto the Leaflet
layer object: `__gibs_attemptDate`, `__gibs_matrixIdx`, `__gibs_altIdx`
(the latter starts absent; `if (!layer.__gibs_altIdx) layer.__gibs_altIdx = 0`
makes absent behave as `0`, so we model it as a `Nat` starting at `0`). -/
structure FallbackState where
  attemptDate : Nat
  matrixIdx : Nat
  altIdx : Nat
deriving DecidableEq, Repr

/-- The initial fallback state at layer creation
(`layer.__gibs_attemptDate = 0; layer.__gibs_matrixIdx = 0;`). -/
def initState : FallbackState := ⟨0, 0, 0⟩

/-- External facts one handler invocation consults: the OWM API key
(`process.env.REACT_APP_OWM_KEY`), whether a prebuilt RainViewer layer was
attached (`layer.__gibs_prebuiltRainViewer`), the outcome of the RainViewer
`maps.json` lookup (`none` = fetch rejected or no timestamps), whether the old
layer is on the map (`map.hasLayer(layer)`), and whether this variable is the
active one (`activeVar === name`). -/
structure Env where
  owmKey : Option String
  prebuiltRainViewer : Bool
  rainviewerTimestamp : Option Nat
  oldLayerMounted : Bool
  varIsActive : Bool
deriving DecidableEq, Repr

/-- One URL/provider resolution performed by the fallback handler: a
`layer.setUrl(makeUrlWithMatrix(date, matrix))` re-issue, or the construction
of an alternate layer. -/
inductive ProviderRes where
  /-- `layer.setUrl(makeUrlWithMatrix(date, matrix))` with the given arguments. -/
  | reissue (date matrix : String)
  /-- `L.tileLayer(owmUrl, optsOwm)` for an openweathermap alternate. -/
  | altOwm (url : String)
  /-- `L.tileLayer(candidate.url, opts2)` for an xyz alternate. -/
  | altXyz (url : String)
  /-- reuse of the prebuilt RainViewer layer. -/
  | altRainPrebuilt
  /-- `L.tileLayer(rvUrl, opts3)` after a successful maps.json lookup. -/
  | altRainFetched (timestamp : Nat)
deriving DecidableEq, Repr

/-- Operations performed on the Leaflet map by an alternate swap. -/
inductive MapOp where
  /-- `map.removeLayer(layer)` (the old layer). -/
  | removeOld
  /-- `altLayer.addTo(map)` (the newly built layer). -/
  | addNew
deriving DecidableEq, Repr

/-- Error-taxonomy events the handler logs. -/
inductive LogEvent where
  /-- missing `REACT_APP_OWM_KEY` for a keyed alternate. -/
  | missingCredential
  /-- RainViewer maps.json fetch failed or returned no timestamps. -/
  | lookupFailure
  /-- `' WMTS tileerror — no fallback dates or matrices left'`. -/
  | exhausted
deriving DecidableEq, Repr

/-- Everything one invocation of the `tileerror` handler does: the new counter
state, the URL/provider resolutions performed, the registry writes
(`layersRef.current[name] = …`), the map operations, and the logged events. -/
structure StepOut where
  state : FallbackState
  resolutions : List ProviderRes
  registryWrites : List ProviderRes
  mapOps : List MapOp
  logs : List LogEvent
deriving DecidableEq, Repr

/-- Map operations of an alternate-layer swap:
`if (map.hasLayer(layer)) map.removeLayer(layer); if (activeVar === name) altLayer.addTo(map);`. -/
def swapMapOps (env : Env) : List MapOp :=
  (if env.oldLayerMounted then [MapOp.removeOld] else [])
    ++ (if env.varIsActive then [MapOp.addNew] else [])

/-- Body of the `tileerror` handler of a WMTS layer (src/unnamed/part_005,
lines 591–725), translated branch for branch:

1. if `attemptDate + 1 < tryDates.length`: advance the date, re-issue the URL
   built from the next date and the *same* matrix candidate;
2. else if `matrixIdx + 1 < matrixCandidates.length`: advance the matrix,
   reset `attemptDate` to `0`, re-issue the URL built from `tryDates[0]` and
   the next matrix;
3. else if alternates remain (`altIdx < alts.length`): consume the alternate
   at `altIdx` (incrementing `altIdx` *before* dispatching on its type):
   * openweathermap with no key: log the missing credential and synchronously
     re-fire the handler (`layer.fire('tileerror', ev)`), which re-enters the
     handler from the top — the recursive call below, with the date and matrix
     guards unchanged and therefore re-checked faithfully;
   * openweathermap with a key / xyz: build the alternate layer, write it to
     the registry, and perform the conditional map swap;
   * rainviewer: reuse the prebuilt layer if present, otherwise use the
     maps.json lookup outcome; a failed lookup only logs;
4. else: log exhaustion and change nothing.

`mats` abstracts the closed-over `matrixCandidates` array (the handler only
ever indexes it and takes its length); the source instantiates it with
`matrixCandidates cfg`.  `remaining` is the suffix of the alternate list that
has not been consumed, kept in lockstep with `s.altIdx`
(`remaining = cfg.alt.drop s.altIdx` at every call); the source indexes
`alts[altIdx]`, which under that invariant is the head of `remaining`, and the
guard `altIdx < alts.length` is `remaining ≠ []`. -/
def tileerrorGo (cfg : WmtsCfg) (mats : List String) (env : Env)
    (s : FallbackState) (remaining : List AltProvider) : StepOut :=
  if s.attemptDate + 1 < cfg.tryDates.length then
    { state := { s with attemptDate := s.attemptDate + 1 },
      resolutions := [ProviderRes.reissue (cfg.tryDates.getD (s.attemptDate + 1) "")
        (mats.getD s.matrixIdx "")],
      registryWrites := [], mapOps := [], logs := [] }
  else if s.matrixIdx + 1 < mats.length then
    { state := { s with matrixIdx := s.matrixIdx + 1, attemptDate := 0 },
      resolutions := [ProviderRes.reissue (cfg.tryDates.getD 0 "")
        (mats.getD (s.matrixIdx + 1) "")],
      registryWrites := [], mapOps := [], logs := [] }
  else
    match remaining with
    | [] =>
      { state := s, resolutions := [], registryWrites := [], mapOps := [],
        logs := [LogEvent.exhausted] }
    | candidate :: rest =>
      let s' : FallbackState := { s with altIdx := s.altIdx + 1 }
      match candidate with
      | AltProvider.openweathermap lyr =>
        match env.owmKey with
        | none =>
          let r := tileerrorGo cfg mats env s' rest
          { state := r.state, resolutions := r.resolutions,
            registryWrites := r.registryWrites, mapOps := r.mapOps,
            logs := LogEvent.missingCredential :: r.logs }
        | some key =>
          { state := s', resolutions := [ProviderRes.altOwm (owmTileUrl lyr key)],
            registryWrites := [ProviderRes.altOwm (owmTileUrl lyr key)],
            mapOps := swapMapOps env, logs := [] }
      | AltProvider.xyz url =>
        { state := s', resolutions := [ProviderRes.altXyz url],
          registryWrites := [ProviderRes.altXyz url],
          mapOps := swapMapOps env, logs := [] }
      | AltProvider.rainviewer =>
        if env.prebuiltRainViewer then
          { state := s', resolutions := [ProviderRes.altRainPrebuilt],
            registryWrites := [ProviderRes.altRainPrebuilt],
            mapOps := swapMapOps env, logs := [] }
        else
          match env.rainviewerTimestamp with
          | some t =>
            { state := s', resolutions := [ProviderRes.altRainFetched t],
              registryWrites := [ProviderRes.altRainFetched t],
              mapOps := swapMapOps env, logs := [] }
          | none =>
            { state := s', resolutions := [], registryWrites := [],
              mapOps := [], logs := [LogEvent.lookupFailure] }

/-- One invocation of the `tileerror` handler at state `s`. -/
def tileerrorStep (cfg : WmtsCfg) (mats : List String) (env : Env)
    (s : FallbackState) : StepOut :=
  tileerrorGo cfg mats env s (cfg.alt.drop s.altIdx)

/-- Sequence of handler invocations: the per-invocation `StepOut`s of `fuel`
consecutive tile-load-failure signals starting from state `s`. -/
def runOuts (cfg : WmtsCfg) (mats : List String) (env : Env) :
    Nat → FallbackState → List StepOut
  | 0, _ => []
  | fuel + 1, s =>
    let o := tileerrorStep cfg mats env s
    o :: runOuts cfg mats env fuel o.state

/-- State after `fuel` consecutive failure signals. -/
def stateAfter (cfg : WmtsCfg) (mats : List String) (env : Env) :
    Nat → FallbackState → FallbackState
  | 0, s => s
  | fuel + 1, s => stateAfter cfg mats env fuel (tileerrorStep cfg mats env s).state

/-- All URL/provider resolutions over a run of `fuel` failure signals. -/
def runResolutions (cfg : WmtsCfg) (mats : List String) (env : Env)
    (fuel : Nat) (s : FallbackState) : List ProviderRes :=
  (runOuts cfg mats env fuel s).flatMap (fun o => o.resolutions)

/-- The `Exhausted` condition: none of the three branches can advance. -/
def isExhausted (cfg : WmtsCfg) (mats : List String) (s : FallbackState) : Prop :=
  ¬ s.attemptDate + 1 < cfg.tryDates.length ∧ ¬ s.matrixIdx + 1 < mats.length ∧
    ¬ s.altIdx < cfg.alt.length

instance (cfg : WmtsCfg) (mats : List String) (s : FallbackState) :
    Decidable (isExhausted cfg mats s) := by
  unfold isExhausted; infer_instance

/-- The `Precipitación` entry of `LAYER_DEFS` (the only variable with an `alt`
list), with its five clock-derived candidate dates instantiated to five
concrete consecutive days. -/
def precipCfg : WmtsCfg :=
  { layer := "GPM_3IMERGHH_V07B_Precipitation", format := "png",
    tileMatrixSet := "GoogleMapsCompatible_Level9",
    tryDates := ["2025-01-05", "2025-01-04", "2025-01-03", "2025-01-02", "2025-01-01"],
    alt := [AltProvider.openweathermap "precipitation_new", AltProvider.rainviewer] }

/-- The `Temperatura del mar` entry of `LAYER_DEFS` (no `alt` list), whose
declared matrix set is `GoogleMapsCompatible_Level7` — so the handler's
candidate list `matrixCandidates` is `[Level7, Level8, Level7]`, containing
`Level7` twice. -/
def seaTempCfg : WmtsCfg :=
  { layer := "GHRSST_L4_MUR_Sea_Surface_Temperature", format := "png",
    tileMatrixSet := "GoogleMapsCompatible_Level7",
    tryDates := ["2025-01-05", "2025-01-04", "2025-01-03", "2025-01-02", "2025-01-01"],
    alt := [] }

/-- Environment of a deployment without `REACT_APP_OWM_KEY` and with the
RainViewer lookup failing: the WMTS layer is the primary provider and every
alternate is consumed without a build. -/
def envNoKey : Env :=
  { owmKey := none, prebuiltRainViewer := false, rainviewerTimestamp := none,
    oldLayerMounted := true, varIsActive := true }

/-- Environment with an OWM key configured and a successful RainViewer lookup. -/
def envFull : Env :=
  { owmKey := some "k", prebuiltRainViewer := false, rainviewerTimestamp := some 170,
    oldLayerMounted := true, varIsActive := true }

/-- The `(date, matrix)` pairs substituted into `makeUrlWithMatrix` by the
`setUrl` re-issues of one handler invocation (alternate-provider resolutions
substitute no such pair). -/
def stepPairs (o : StepOut) : List (String × String) :=
  o.resolutions.filterMap fun r =>
    match r with
    | ProviderRes.reissue d m => some (d, m)
    | _ => none

/-- All `(date, matrix)` pairs re-issued over a run of `fuel` failure signals. -/
def runPairs (cfg : WmtsCfg) (mats : List String) (env : Env)
    (fuel : Nat) (s : FallbackState) : List (String × String) :=
  (runOuts cfg mats env fuel s).flatMap stepPairs

/-- The `(attemptDate, matrixIdx)` index positions addressed by the `setUrl`
re-issues of a run: the post-state indices of every invocation that emitted a
re-issue.  A re-issue substitutes `tryDates[attemptDate]` and
`matrixCandidates[matrixIdx]` of its post-state, so this list determines
`runPairs` (see `runPairs_eq_map_idx`). -/
def runPairsIdx (cfg : WmtsCfg) (mats : List String) (env : Env) :
    Nat → FallbackState → List (Nat × Nat)
  | 0, _ => []
  | fuel + 1, s =>
    let o := tileerrorStep cfg mats env s
    (if stepPairs o = [] then []
      else [(o.state.attemptDate, o.state.matrixIdx)])
      ++ runPairsIdx cfg mats env fuel o.state

/-- Number of candidate advances still available from state `s`: date advances
left at the current matrix, full date rounds for the matrices left, and
alternates left.  Every non-exhausted handler invocation strictly decreases
it, and every invocation performs at most one URL/provider resolution. -/
def fbMeasure (cfg : WmtsCfg) (mats : List String) (s : FallbackState) : Nat :=
  (cfg.tryDates.length - 1 - s.attemptDate)
    + cfg.tryDates.length * (mats.length - 1 - s.matrixIdx)
    + (cfg.alt.length - s.altIdx)

/-! ### Availability prober (src/unnamed/part_005, lines 518–544)

`probeTiles` races, per tile, an image `onload` (hit), an `onerror` (miss) and
a 3000 ms timer (miss); `Promise.all` then divides hits by the sample count.
The network behaviour of one tile is external input; `loadsAt t` / `errorsAt
t` give the time the image would settle, `hangs` a fetch that never settles.
JS division `0/0` (empty coordinate list) yields `NaN`, modelled as `none`. -/

/-- External network behaviour of a single probed tile. -/
inductive TileFetch where
  | loadsAt (t : Nat)
  | errorsAt (t : Nat)
  | hangs
deriving DecidableEq, Repr

/-- The fixed probe timeout: `setTimeout(() => resolve(false), 3000)`. -/
def probeTimeoutMs : Nat := 3000

/-- Outcome of one sample promise: `true` only if `onload` wins the race
against the timer; an error or a hang resolves `false`. -/
def sampleHit (b : TileFetch) : Bool :=
  match b with
  | TileFetch.loadsAt t => decide (t < probeTimeoutMs)
  | TileFetch.errorsAt _ => false
  | TileFetch.hangs => false

/-- JS division on these non-negative counts: `b = 0` gives `NaN` (`none`). -/
def jsDivNat (a b : Nat) : Option ℚ :=
  if b = 0 then none else some ((a : ℚ) / (b : ℚ))

/-- `probeTiles`: `results.filter(Boolean).length / results.length` over the
per-tile outcomes. -/
def probeTiles (outcomes : List TileFetch) : Option ℚ :=
  jsDivNat (outcomes.countP fun b => sampleHit b) outcomes.length

/-- `const zProbe = Math.min(map.getZoom(), layerOpts.maxZoom || 6, 6);` —
`maxZoom` absent or `0` is falsy, so `|| 6` substitutes `6`. -/
def zProbe (currentZoom : Nat) (maxZoom : Option Nat) : Nat :=
  min (min currentZoom (match maxZoom with
    | some m => if m = 0 then 6 else m
    | none => 6)) 6

/-- The probe sample set built from the centre tile `(cx, cy)` at zoom `z`
(src/unnamed/part_005, lines 539–544): the centre tile and the tiles at
`x + 1`, `y + 1` and `x - 1`. -/
def probeCoords (z : Nat) (cx cy : Int) : List (Nat × Int × Int) :=
  [(z, cx, cy), (z, cx + 1, cy), (z, cx, cy + 1), (z, cx - 1, cy)]

/-- Modelled from the spec: the sample set its words describe — "the center
tile plus its four neighbors" (east, west, south and north). -/
def probeCoordsSpecFive (z : Nat) (cx cy : Int) : List (Nat × Int × Int) :=
  [(z, cx, cy), (z, cx + 1, cy), (z, cx - 1, cy), (z, cx, cy + 1), (z, cx, cy - 1)]

/-- `latLngToTile(lat, lon, z)` (src/unnamed/part_005, lines 529–534):
```
const xtile = Math.floor((lon + 180) / 360 * Math.pow(2, z));
const latRad = lat * Math.PI / 180;
const ytile = Math.floor((1 - Math.log(Math.tan(latRad) + 1/Math.cos(latRad)) / Math.PI) / 2 * Math.pow(2, z));
```
The JS doubles and their trigonometry are idealised as real numbers, so this
definition is not executable; concrete centres are evaluated through
closed-form trigonometric identities (see `latLngToTile_origin`). -/
noncomputable def latLngToTile (lat lon : ℝ) (z : Nat) : Int × Int :=
  (⌊(lon + 180) / 360 * (2 : ℝ) ^ z⌋,
   ⌊(1 - Real.log (Real.tan (lat * Real.pi / 180) + 1 / Real.cos (lat * Real.pi / 180))
        / Real.pi) / 2 * (2 : ℝ) ^ z⌋)

/-- The full probe sample pipeline (src/unnamed/part_005, lines 537–544):
`zProbe` from the current and provider zooms, the centre tile from the map
centre via `latLngToTile` at that zoom, and the four `probeCoords` built from
it. -/
noncomputable def probeSample (lat lon : ℝ) (currentZoom : Nat)
    (maxZoom : Option Nat) : List (Nat × Int × Int) :=
  probeCoords (zProbe currentZoom maxZoom)
    (latLngToTile lat lon (zProbe currentZoom maxZoom)).1
    (latLngToTile lat lon (zProbe currentZoom maxZoom)).2

/-! ### Registry and map swap (src/unnamed/part_005)

`layersRef.current` maps a variable name to its current Leaflet layer; the
map's mounted layers are a set of layer ids.  The reactive alternate swap
(lines 644–649 and its twins in the xyz/rainviewer branches) runs
```
layersRef.current[name] = altLayer;
if (map.hasLayer(layer)) map.removeLayer(layer);
if (activeVar === name) altLayer.addTo(map);
```
the probe-driven switch (lines 552–561) runs only
`layersRef.current[name] = altLayer;` and never touches the map. -/

/-- Registry plus map state; layers are identified by `Nat` ids. -/
structure SwapWorld where
  registry : List (String × Nat)
  mounted : List Nat
  activeVar : String
deriving DecidableEq, Repr

/-- `layersRef.current[name] = newLayer`: replace (or add) the entry. -/
def setEntry (reg : List (String × Nat)) (name : String) (newLayer : Nat) :
    List (String × Nat) :=
  match reg with
  | [] => [(name, newLayer)]
  | (k, v) :: rest =>
    if k = name then (k, newLayer) :: rest else (k, v) :: setEntry rest name newLayer

/-- The reactive alternate-layer swap. -/
def altSwapResolve (w : SwapWorld) (name : String) (oldLayer newLayer : Nat) :
    SwapWorld :=
  { registry := setEntry w.registry name newLayer,
    mounted := (if oldLayer ∈ w.mounted then w.mounted.erase oldLayer else w.mounted)
      ++ (if w.activeVar = name then [newLayer] else []),
    activeVar := w.activeVar }

/-- The probe-driven switch: registry write only, no map operation. -/
def probeSwitchResolve (w : SwapWorld) (name : String) (newLayer : Nat) :
    SwapWorld :=
  { registry := setEntry w.registry name newLayer,
    mounted := w.mounted,
    activeVar := w.activeVar }

/-! ### saveClimateData (src/climetrica-frontend/src/api/Save_climate_data_helper.js)

Only the guard, the POST and the result shape matter here; the payload built
in the body depends on the wall clock and locale and is opaque to the guard.
`JSArg` models a JS object argument, which is falsy exactly when it is `null`
or `undefined`. -/

/-- A JS argument expected to hold an object. -/
inductive JSArg (α : Type) where
  | jsNull
  | jsUndefined
  | value (a : α)
deriving DecidableEq, Repr

/-- JS truthiness of an object argument: objects are always truthy, `null`
and `undefined` are falsy. -/
def JSArg.truthy {α : Type} : JSArg α → Bool
  | JSArg.value _ => true
  | _ => false

/-- The result object `saveClimateData` resolves with. -/
structure SaveResult where
  success : Bool
  error : Option String
  data : Option String
deriving DecidableEq, Repr

/-- A backend request issued through the `API` axios instance. -/
inductive BackendCall where
  | post (path : String)
deriving DecidableEq, Repr

/-- `saveClimateData(climateData, userInfo, …)`: the early-return guard
`if (!climateData || !userInfo)`, the POST to `/api/climate-data/save/`, and
the `catch` that turns a rejected request into `success: false`.
`backendResp` is the external outcome of the POST. -/
def saveClimateData {α β : Type} (climateData : JSArg α) (userInfo : JSArg β)
    (backendResp : Except String String) : SaveResult × List BackendCall :=
  if climateData.truthy = false ∨ userInfo.truthy = false then
    ({ success := false, error := some "Faltan datos requeridos para guardar",
       data := none }, [])
  else
    match backendResp with
    | Except.ok d =>
      ({ success := true, error := none, data := some d },
       [BackendCall.post "/api/climate-data/save/"])
    | Except.error e =>
      ({ success := false, error := some e, data := none },
       [BackendCall.post "/api/climate-data/save/"])

/-! ### aggregateSeries (src/unnamed/part_005, lines 164–184)

A series point `{date, value}` is modelled as `String × ℚ` (the JS values are
numeric strings; `parseFloat` and `toFixed(2)` round-trip them through
numbers, modelled as the rationals they denote).  The `dateMap` object keyed
by date strings, filled by pushing each point's value, is an insertion-ordered
association list; `Object.entries(…).sort(([a],[b]) => a.localeCompare(b))`
sorts the entries by date string (for ISO `YYYY-MM-DD` strings `localeCompare`
agrees with code-point order). -/

/-- One point of a series. -/
abbrev SeriesPoint := String × ℚ

/-- `if (!dateMap[d]) dateMap[d] = []; dateMap[d].push(v);` on the
insertion-ordered association list. -/
def pushVal (m : List (String × List ℚ)) (d : String) (v : ℚ) :
    List (String × List ℚ) :=
  match m with
  | [] => [(d, [v])]
  | (k, vs) :: rest =>
    if k = d then (k, vs ++ [v]) :: rest else (k, vs) :: pushVal rest d v

/-- The `dateMap` built by the nested `forEach` loops (the outer/inner loops
visit exactly the concatenation of the series). -/
def buildDateMap (rows : List SeriesPoint) : List (String × List ℚ) :=
  rows.foldl (fun m p => pushVal m p.1 p.2) []

/-- `Number.prototype.toFixed(2)`: round to two decimal places. -/
def toFixed2 (q : ℚ) : ℚ := (round (q * 100) : ℤ) / 100

/-- Comparator order used by the sort: ascending by date string. -/
def dateKeyLE (a b : String × List ℚ) : Prop := a.1 ≤ b.1

instance : DecidableRel dateKeyLE := fun a b => by
  unfold dateKeyLE; infer_instance

instance : IsTotal (String × List ℚ) dateKeyLE :=
  ⟨fun a b => le_total a.1 b.1⟩

instance : IsTrans (String × List ℚ) dateKeyLE :=
  ⟨fun _ _ _ h1 h2 => le_trans h1 h2⟩

/-- `aggregateSeries(seriesArray)`. -/
def aggregateSeries (seriesArray : List (List SeriesPoint)) : List SeriesPoint :=
  match seriesArray with
  | [] => []
  | [s] => s
  | _ =>
    ((buildDateMap seriesArray.flatten).insertionSort dateKeyLE).map
      fun g => (g.1, toFixed2 (g.2.foldl (· + ·) 0 / (g.2.length : ℚ)))

end Climetrica

namespace Climetrica

example :
    (runResolutions precipCfg (matrixCandidates precipCfg) envNoKey 20 initState).length
      = 14 := by decide

example :
    (runResolutions precipCfg (matrixCandidates precipCfg) envFull 20 initState).length
      = 16 := by decide

example : isExhausted precipCfg (matrixCandidates precipCfg)
    (stateAfter precipCfg (matrixCandidates precipCfg) envNoKey 20 initState) := by decide

example :
    aggregateSeries [[("2024-01-02", 1), ("2024-01-01", 4)], [("2024-01-01", 5)]]
      = [("2024-01-01", 9/2), ("2024-01-02", 1)] := by
  norm_num [aggregateSeries, buildDateMap, pushVal, toFixed2, List.insertionSort,
    List.orderedInsert, dateKeyLE, List.foldl]
  rw [if_neg (by decide)]
  norm_num [round_eq]

example : probeTiles [TileFetch.loadsAt 0, TileFetch.hangs, TileFetch.errorsAt 5,
    TileFetch.loadsAt 4000] = some (1/4) := by
  norm_num [probeTiles, jsDivNat, sampleHit, probeTimeoutMs, List.countP, List.countP.go]

/-! ### Branch equations of the `tileerror` handler -/

theorem go_date {cfg : WmtsCfg} {mats : List String} {env : Env} {s : FallbackState}
    (rem : List AltProvider) (h : s.attemptDate + 1 < cfg.tryDates.length) :
    tileerrorGo cfg mats env s rem =
      { state := { s with attemptDate := s.attemptDate + 1 },
        resolutions := [ProviderRes.reissue (cfg.tryDates.getD (s.attemptDate + 1) "")
          (mats.getD s.matrixIdx "")],
        registryWrites := [], mapOps := [], logs := [] } := by
  unfold tileerrorGo; rw [if_pos h]

theorem go_matrix {cfg : WmtsCfg} {mats : List String} {env : Env} {s : FallbackState}
    (rem : List AltProvider) (h1 : ¬ s.attemptDate + 1 < cfg.tryDates.length)
    (h2 : s.matrixIdx + 1 < mats.length) :
    tileerrorGo cfg mats env s rem =
      { state := { s with matrixIdx := s.matrixIdx + 1, attemptDate := 0 },
        resolutions := [ProviderRes.reissue (cfg.tryDates.getD 0 "")
          (mats.getD (s.matrixIdx + 1) "")],
        registryWrites := [], mapOps := [], logs := [] } := by
  unfold tileerrorGo; rw [if_neg h1, if_pos h2]

theorem go_nil {cfg : WmtsCfg} {mats : List String} {env : Env} {s : FallbackState}
    (h1 : ¬ s.attemptDate + 1 < cfg.tryDates.length)
    (h2 : ¬ s.matrixIdx + 1 < mats.length) :
    tileerrorGo cfg mats env s [] =
      { state := s, resolutions := [], registryWrites := [], mapOps := [],
        logs := [LogEvent.exhausted] } := by
  unfold tileerrorGo; rw [if_neg h1, if_neg h2]

theorem go_owm_nokey {cfg : WmtsCfg} {mats : List String} {env : Env} {s : FallbackState}
    {lyr : String} (rest : List AltProvider)
    (h1 : ¬ s.attemptDate + 1 < cfg.tryDates.length)
    (h2 : ¬ s.matrixIdx + 1 < mats.length) (hk : env.owmKey = none) :
    tileerrorGo cfg mats env s (AltProvider.openweathermap lyr :: rest) =
      { state := (tileerrorGo cfg mats env { s with altIdx := s.altIdx + 1 } rest).state,
        resolutions :=
          (tileerrorGo cfg mats env { s with altIdx := s.altIdx + 1 } rest).resolutions,
        registryWrites :=
          (tileerrorGo cfg mats env { s with altIdx := s.altIdx + 1 } rest).registryWrites,
        mapOps := (tileerrorGo cfg mats env { s with altIdx := s.altIdx + 1 } rest).mapOps,
        logs := LogEvent.missingCredential ::
          (tileerrorGo cfg mats env { s with altIdx := s.altIdx + 1 } rest).logs } := by
  conv_lhs => unfold tileerrorGo
  rw [if_neg h1, if_neg h2]
  simp only [hk]

theorem go_owm_key {cfg : WmtsCfg} {mats : List String} {env : Env} {s : FallbackState}
    {lyr key : String} (rest : List AltProvider)
    (h1 : ¬ s.attemptDate + 1 < cfg.tryDates.length)
    (h2 : ¬ s.matrixIdx + 1 < mats.length) (hk : env.owmKey = some key) :
    tileerrorGo cfg mats env s (AltProvider.openweathermap lyr :: rest) =
      { state := { s with altIdx := s.altIdx + 1 },
        resolutions := [ProviderRes.altOwm (owmTileUrl lyr key)],
        registryWrites := [ProviderRes.altOwm (owmTileUrl lyr key)],
        mapOps := swapMapOps env, logs := [] } := by
  conv_lhs => unfold tileerrorGo
  rw [if_neg h1, if_neg h2]
  simp only [hk]

theorem go_xyz {cfg : WmtsCfg} {mats : List String} {env : Env} {s : FallbackState}
    {url : String} (rest : List AltProvider)
    (h1 : ¬ s.attemptDate + 1 < cfg.tryDates.length)
    (h2 : ¬ s.matrixIdx + 1 < mats.length) :
    tileerrorGo cfg mats env s (AltProvider.xyz url :: rest) =
      { state := { s with altIdx := s.altIdx + 1 },
        resolutions := [ProviderRes.altXyz url],
        registryWrites := [ProviderRes.altXyz url],
        mapOps := swapMapOps env, logs := [] } := by
  unfold tileerrorGo; rw [if_neg h1, if_neg h2]

theorem go_rain_pre {cfg : WmtsCfg} {mats : List String} {env : Env} {s : FallbackState}
    (rest : List AltProvider)
    (h1 : ¬ s.attemptDate + 1 < cfg.tryDates.length)
    (h2 : ¬ s.matrixIdx + 1 < mats.length) (hp : env.prebuiltRainViewer = true) :
    tileerrorGo cfg mats env s (AltProvider.rainviewer :: rest) =
      { state := { s with altIdx := s.altIdx + 1 },
        resolutions := [ProviderRes.altRainPrebuilt],
        registryWrites := [ProviderRes.altRainPrebuilt],
        mapOps := swapMapOps env, logs := [] } := by
  conv_lhs => unfold tileerrorGo
  rw [if_neg h1, if_neg h2]
  simp [hp]

theorem go_rain_fetch {cfg : WmtsCfg} {mats : List String} {env : Env} {s : FallbackState}
    {t : Nat} (rest : List AltProvider)
    (h1 : ¬ s.attemptDate + 1 < cfg.tryDates.length)
    (h2 : ¬ s.matrixIdx + 1 < mats.length) (hp : env.prebuiltRainViewer = false)
    (ht : env.rainviewerTimestamp = some t) :
    tileerrorGo cfg mats env s (AltProvider.rainviewer :: rest) =
      { state := { s with altIdx := s.altIdx + 1 },
        resolutions := [ProviderRes.altRainFetched t],
        registryWrites := [ProviderRes.altRainFetched t],
        mapOps := swapMapOps env, logs := [] } := by
  conv_lhs => unfold tileerrorGo
  rw [if_neg h1, if_neg h2]
  simp [hp, ht]

theorem go_rain_fail {cfg : WmtsCfg} {mats : List String} {env : Env} {s : FallbackState}
    (rest : List AltProvider)
    (h1 : ¬ s.attemptDate + 1 < cfg.tryDates.length)
    (h2 : ¬ s.matrixIdx + 1 < mats.length) (hp : env.prebuiltRainViewer = false)
    (ht : env.rainviewerTimestamp = none) :
    tileerrorGo cfg mats env s (AltProvider.rainviewer :: rest) =
      { state := { s with altIdx := s.altIdx + 1 },
        resolutions := [], registryWrites := [], mapOps := [],
        logs := [LogEvent.lookupFailure] } := by
  conv_lhs => unfold tileerrorGo
  rw [if_neg h1, if_neg h2]
  simp [hp, ht]

end Climetrica

namespace Climetrica

/-! ### Alternate-phase facts (by induction over the remaining alternates) -/

theorem go_alt_phase {cfg : WmtsCfg} {mats : List String} {env : Env} :
    ∀ (rem : List AltProvider) (s : FallbackState),
      ¬ s.attemptDate + 1 < cfg.tryDates.length →
      ¬ s.matrixIdx + 1 < mats.length →
      (tileerrorGo cfg mats env s rem).state.attemptDate = s.attemptDate ∧
      (tileerrorGo cfg mats env s rem).state.matrixIdx = s.matrixIdx ∧
      s.altIdx ≤ (tileerrorGo cfg mats env s rem).state.altIdx ∧
      (tileerrorGo cfg mats env s rem).state.altIdx ≤ s.altIdx + rem.length ∧
      (rem ≠ [] → s.altIdx + 1 ≤ (tileerrorGo cfg mats env s rem).state.altIdx) ∧
      (tileerrorGo cfg mats env s rem).resolutions.length ≤ 1 ∧
      stepPairs (tileerrorGo cfg mats env s rem) = [] := by
  intro rem
  induction rem with
  | nil =>
    intro s h1 h2
    rw [go_nil h1 h2]
    simp [stepPairs]
  | cons candidate rest IH =>
    intro s h1 h2
    match candidate with
    | AltProvider.openweathermap lyr =>
      cases hk : env.owmKey with
      | none =>
        have ih := IH { s with altIdx := s.altIdx + 1 } h1 h2
        rw [go_owm_nokey rest h1 h2 hk]
        dsimp only at ih ⊢
        obtain ⟨e1, e2, e3, e4, e5, e6, e7⟩ := ih
        refine ⟨e1, e2, by omega, by simp only [List.length_cons]; omega,
          fun _ => by omega, e6, ?_⟩
        simpa [stepPairs] using e7
      | some k =>
        rw [go_owm_key rest h1 h2 hk]
        simp [stepPairs]
    | AltProvider.xyz url =>
      rw [go_xyz rest h1 h2]
      simp [stepPairs]
    | AltProvider.rainviewer =>
      cases hp : env.prebuiltRainViewer with
      | true =>
        rw [go_rain_pre rest h1 h2 hp]
        simp [stepPairs]
      | false =>
        cases ht : env.rainviewerTimestamp with
        | none =>
          rw [go_rain_fail rest h1 h2 hp ht]
          simp [stepPairs]
        | some t =>
          rw [go_rain_fetch rest h1 h2 hp ht]
          simp [stepPairs]

theorem go_measure {cfg : WmtsCfg} {mats : List String} {env : Env}
    (hN : 0 < cfg.tryDates.length) :
    ∀ (rem : List AltProvider) (s : FallbackState),
      s.altIdx + rem.length ≤ cfg.alt.length →
      (tileerrorGo cfg mats env s rem).resolutions.length
          + fbMeasure cfg mats (tileerrorGo cfg mats env s rem).state
        ≤ fbMeasure cfg mats s := by
  intro rem
  induction rem with
  | nil =>
    intro s hrem
    by_cases h1 : s.attemptDate + 1 < cfg.tryDates.length
    · rw [go_date [] h1]
      simp only [fbMeasure, List.length_cons, List.length_nil]
      omega
    · by_cases h2 : s.matrixIdx + 1 < mats.length
      · rw [go_matrix [] h1 h2]
        have e : mats.length - 1 - s.matrixIdx
            = (mats.length - 1 - (s.matrixIdx + 1)) + 1 := by omega
        simp only [fbMeasure, List.length_cons, List.length_nil]
        rw [e, Nat.mul_succ]
        omega
      · rw [go_nil h1 h2]
        simp [fbMeasure]
  | cons candidate rest IH =>
    intro s hrem
    by_cases h1 : s.attemptDate + 1 < cfg.tryDates.length
    · rw [go_date (candidate :: rest) h1]
      simp only [fbMeasure, List.length_cons, List.length_nil]
      omega
    · by_cases h2 : s.matrixIdx + 1 < mats.length
      · rw [go_matrix (candidate :: rest) h1 h2]
        have e : mats.length - 1 - s.matrixIdx
            = (mats.length - 1 - (s.matrixIdx + 1)) + 1 := by omega
        simp only [fbMeasure, List.length_cons, List.length_nil]
        rw [e, Nat.mul_succ]
        omega
      · have hrem' : s.altIdx + 1 + rest.length ≤ cfg.alt.length := by
          simp only [List.length_cons] at hrem; omega
        match candidate with
        | AltProvider.openweathermap lyr =>
          cases hk : env.owmKey with
          | none =>
            have ih := IH { s with altIdx := s.altIdx + 1 } hrem'
            rw [go_owm_nokey rest h1 h2 hk]
            dsimp only at ih ⊢
            simp only [fbMeasure] at ih ⊢
            omega
          | some k =>
            rw [go_owm_key rest h1 h2 hk]
            simp only [fbMeasure, List.length_cons, List.length_nil]
            omega
        | AltProvider.xyz url =>
          rw [go_xyz rest h1 h2]
          simp only [fbMeasure, List.length_cons, List.length_nil]
          omega
        | AltProvider.rainviewer =>
          cases hp : env.prebuiltRainViewer with
          | true =>
            rw [go_rain_pre rest h1 h2 hp]
            simp only [fbMeasure, List.length_cons, List.length_nil]
            omega
          | false =>
            cases ht : env.rainviewerTimestamp with
            | none =>
              rw [go_rain_fail rest h1 h2 hp ht]
              simp only [fbMeasure, List.length_cons, List.length_nil]
              omega
            | some t =>
              rw [go_rain_fetch rest h1 h2 hp ht]
              simp only [fbMeasure, List.length_cons, List.length_nil]
              omega

theorem step_measure {cfg : WmtsCfg} {mats : List String} {env : Env}
    {s : FallbackState} (hN : 0 < cfg.tryDates.length)
    (ha : s.altIdx ≤ cfg.alt.length) :
    (tileerrorStep cfg mats env s).resolutions.length
        + fbMeasure cfg mats (tileerrorStep cfg mats env s).state
      ≤ fbMeasure cfg mats s := by
  unfold tileerrorStep
  apply go_measure hN
  rw [List.length_drop]
  omega

theorem step_altIdx_le {cfg : WmtsCfg} {mats : List String} {env : Env}
    {s : FallbackState} (ha : s.altIdx ≤ cfg.alt.length) :
    (tileerrorStep cfg mats env s).state.altIdx ≤ cfg.alt.length := by
  unfold tileerrorStep
  by_cases h1 : s.attemptDate + 1 < cfg.tryDates.length
  · rw [go_date _ h1]; exact ha
  · by_cases h2 : s.matrixIdx + 1 < mats.length
    · rw [go_matrix _ h1 h2]; exact ha
    · have h := (@go_alt_phase cfg mats env (cfg.alt.drop s.altIdx) s h1 h2).2.2.2.1
      rw [List.length_drop] at h
      omega

theorem runRes_bound {cfg : WmtsCfg} {mats : List String} {env : Env}
    (hN : 0 < cfg.tryDates.length) :
    ∀ (fuel : Nat) (s : FallbackState), s.altIdx ≤ cfg.alt.length →
      (runResolutions cfg mats env fuel s).length ≤ fbMeasure cfg mats s := by
  intro fuel
  induction fuel with
  | zero => intro s _; simp [runResolutions, runOuts]
  | succ fuel IH =>
    intro s ha
    have h1 := @step_measure cfg mats env s hN ha
    have h2 := IH (tileerrorStep cfg mats env s).state (step_altIdx_le ha)
    simp only [runResolutions, runOuts, List.flatMap_cons] at h2 ⊢
    rw [List.length_append]
    omega

end Climetrica

namespace Climetrica

/-! ### The `(date, matrix)` pairs of a run never repeat -/

/-- One handler invocation either re-issues nothing and leaves the date and
matrix indices unchanged, or re-issues exactly the pair addressed by its
post-state, whose matrix-major rank `matrixIdx * N + attemptDate` is exactly
one more than the pre-state's; both indices stay in range. -/
theorem step_dichotomy {cfg : WmtsCfg} {mats : List String} {env : Env}
    {s : FallbackState} (hN : 0 < cfg.tryDates.length)
    (hd : s.attemptDate < cfg.tryDates.length) (hm : s.matrixIdx < mats.length) :
    ((tileerrorStep cfg mats env s).state.attemptDate < cfg.tryDates.length ∧
      (tileerrorStep cfg mats env s).state.matrixIdx < mats.length) ∧
    ((stepPairs (tileerrorStep cfg mats env s) = [] ∧
        (tileerrorStep cfg mats env s).state.attemptDate = s.attemptDate ∧
        (tileerrorStep cfg mats env s).state.matrixIdx = s.matrixIdx) ∨
      (stepPairs (tileerrorStep cfg mats env s) =
          [(cfg.tryDates.getD (tileerrorStep cfg mats env s).state.attemptDate "",
            mats.getD (tileerrorStep cfg mats env s).state.matrixIdx "")] ∧
        (tileerrorStep cfg mats env s).state.matrixIdx * cfg.tryDates.length
            + (tileerrorStep cfg mats env s).state.attemptDate
          = s.matrixIdx * cfg.tryDates.length + s.attemptDate + 1)) := by
  unfold tileerrorStep
  by_cases h1 : s.attemptDate + 1 < cfg.tryDates.length
  · rw [go_date _ h1]
    refine ⟨⟨h1, hm⟩, Or.inr ⟨by simp [stepPairs], by dsimp only; omega⟩⟩
  · by_cases h2 : s.matrixIdx + 1 < mats.length
    · rw [go_matrix _ h1 h2]
      refine ⟨⟨hN, h2⟩, Or.inr ⟨by simp [stepPairs], ?_⟩⟩
      dsimp only
      have hde : s.attemptDate = cfg.tryDates.length - 1 := by omega
      rw [Nat.succ_mul]
      omega
    · have h := @go_alt_phase cfg mats env (cfg.alt.drop s.altIdx) s h1 h2
      exact ⟨⟨h.1 ▸ hd, h.2.1 ▸ hm⟩, Or.inl ⟨h.2.2.2.2.2.2, h.1, h.2.1⟩⟩

/-- Every index pair re-issued anywhere along a run has matrix-major rank
strictly above the starting state's. -/
theorem runPairsIdx_rank_lb {cfg : WmtsCfg} {mats : List String} {env : Env}
    (hN : 0 < cfg.tryDates.length) :
    ∀ (fuel : Nat) (s : FallbackState), s.attemptDate < cfg.tryDates.length →
      s.matrixIdx < mats.length →
      ∀ dm ∈ runPairsIdx cfg mats env fuel s,
        dm.1 < cfg.tryDates.length ∧ dm.2 < mats.length ∧
          s.matrixIdx * cfg.tryDates.length + s.attemptDate
            < dm.2 * cfg.tryDates.length + dm.1 := by
  intro fuel
  induction fuel with
  | zero => intro s _ _ dm hdm; simp [runPairsIdx] at hdm
  | succ fuel IH =>
    intro s hd hm dm hdm
    simp only [runPairsIdx, List.mem_append] at hdm
    have dich := @step_dichotomy cfg mats env s hN hd hm
    obtain ⟨⟨hd', hm'⟩, hcases⟩ := dich
    cases hcases with
    | inl h0 =>
      obtain ⟨hpe, hde, hme⟩ := h0
      cases hdm with
      | inl hmem => rw [if_pos hpe] at hmem; simp at hmem
      | inr hmem =>
        obtain ⟨f1, f2, f3⟩ :=
          IH (tileerrorStep cfg mats env s).state hd' hm' dm hmem
        exact ⟨f1, f2, by rw [hde, hme] at f3; omega⟩
    | inr h1 =>
      obtain ⟨hpe, hrank⟩ := h1
      have hnonnil : ¬ stepPairs (tileerrorStep cfg mats env s) = [] := by
        rw [hpe]; simp
      cases hdm with
      | inl hmem =>
        rw [if_neg hnonnil, List.mem_singleton] at hmem
        subst hmem
        exact ⟨hd', hm', by dsimp only; omega⟩
      | inr hmem =>
        obtain ⟨f1, f2, f3⟩ :=
          IH (tileerrorStep cfg mats env s).state hd' hm' dm hmem
        exact ⟨f1, f2, by omega⟩

/-- No `(date index, matrix index)` position is ever re-issued twice along a
run: the matrix-major ranks of the re-issued positions are strictly
increasing. -/
theorem runPairsIdx_nodup {cfg : WmtsCfg} {mats : List String} {env : Env}
    (hN : 0 < cfg.tryDates.length) :
    ∀ (fuel : Nat) (s : FallbackState), s.attemptDate < cfg.tryDates.length →
      s.matrixIdx < mats.length →
      (runPairsIdx cfg mats env fuel s).Nodup := by
  intro fuel
  induction fuel with
  | zero => intro s _ _; simp [runPairsIdx]
  | succ fuel IH =>
    intro s hd hm
    simp only [runPairsIdx]
    have dich := @step_dichotomy cfg mats env s hN hd hm
    obtain ⟨⟨hd', hm'⟩, hcases⟩ := dich
    have htail : (runPairsIdx cfg mats env fuel
        (tileerrorStep cfg mats env s).state).Nodup :=
      IH (tileerrorStep cfg mats env s).state hd' hm'
    cases hcases with
    | inl h0 =>
      rw [if_pos h0.1, List.nil_append]
      exact htail
    | inr h1 =>
      obtain ⟨hpe, hrank⟩ := h1
      have hnonnil : ¬ stepPairs (tileerrorStep cfg mats env s) = [] := by
        rw [hpe]; simp
      rw [if_neg hnonnil, List.singleton_append, List.nodup_cons]
      refine ⟨?_, htail⟩
      intro hmem
      obtain ⟨f1, f2, f3⟩ :=
        runPairsIdx_rank_lb hN fuel (tileerrorStep cfg mats env s).state hd' hm'
          _ hmem
      simp only at f3
      omega

/-- The `(date, matrix)` string pairs substituted by the re-issues of a run
are exactly the candidate entries addressed by the re-issued index
positions. -/
theorem runPairs_eq_map_idx {cfg : WmtsCfg} {mats : List String} {env : Env}
    (hN : 0 < cfg.tryDates.length) :
    ∀ (fuel : Nat) (s : FallbackState), s.attemptDate < cfg.tryDates.length →
      s.matrixIdx < mats.length →
      runPairs cfg mats env fuel s
        = (runPairsIdx cfg mats env fuel s).map
            (fun dm => (cfg.tryDates.getD dm.1 "", mats.getD dm.2 "")) := by
  intro fuel
  induction fuel with
  | zero => intro s _ _; simp [runPairs, runOuts, runPairsIdx]
  | succ fuel IH =>
    intro s hd hm
    simp only [runPairs, runOuts, runPairsIdx, List.flatMap_cons, List.map_append]
    have dich := @step_dichotomy cfg mats env s hN hd hm
    obtain ⟨⟨hd', hm'⟩, hcases⟩ := dich
    have htail := IH (tileerrorStep cfg mats env s).state hd' hm'
    simp only [runPairs] at htail
    cases hcases with
    | inl h0 =>
      rw [if_pos h0.1, h0.1, List.nil_append, List.map_nil, List.nil_append]
      exact htail
    | inr h1 =>
      obtain ⟨hpe, hrank⟩ := h1
      have hnonnil : ¬ stepPairs (tileerrorStep cfg mats env s) = [] := by
        rw [hpe]; simp
      rw [if_neg hnonnil, hpe]
      simp only [List.map_cons, List.map_nil, List.singleton_append,
        List.cons_append, List.nil_append]
      exact congrArg _ htail

end Climetrica

namespace Climetrica

/-- With no OWM key configured, no handler invocation ever constructs an
OpenWeatherMap alternate layer. -/
theorem go_nokey_no_owm {cfg : WmtsCfg} {mats : List String} {env : Env}
    (hk : env.owmKey = none) :
    ∀ (rem : List AltProvider) (s : FallbackState) (u : String),
      ProviderRes.altOwm u ∉ (tileerrorGo cfg mats env s rem).resolutions := by
  intro rem
  induction rem with
  | nil =>
    intro s u
    by_cases h1 : s.attemptDate + 1 < cfg.tryDates.length
    · rw [go_date [] h1]; simp
    · by_cases h2 : s.matrixIdx + 1 < mats.length
      · rw [go_matrix [] h1 h2]; simp
      · rw [go_nil h1 h2]; simp
  | cons candidate rest IH =>
    intro s u
    by_cases h1 : s.attemptDate + 1 < cfg.tryDates.length
    · rw [go_date (candidate :: rest) h1]; simp
    · by_cases h2 : s.matrixIdx + 1 < mats.length
      · rw [go_matrix (candidate :: rest) h1 h2]; simp
      · match candidate with
        | AltProvider.openweathermap lyr =>
          rw [go_owm_nokey rest h1 h2 hk]
          exact IH { s with altIdx := s.altIdx + 1 } u
        | AltProvider.xyz url =>
          rw [go_xyz rest h1 h2]; simp
        | AltProvider.rainviewer =>
          cases hp : env.prebuiltRainViewer with
          | true => rw [go_rain_pre rest h1 h2 hp]; simp
          | false =>
            cases ht : env.rainviewerTimestamp with
            | none => rw [go_rain_fail rest h1 h2 hp ht]; simp
            | some t => rw [go_rain_fetch rest h1 h2 hp ht]; simp

/-- C1 counterexample: for the `Precipitación` definition (N = 5 candidate
dates, M = 3 matrix candidates, 2 alternates, so N + M + |alternates| = 10),
in the key-less environment the policy performs 14 URL re-issues before
reaching the exhausted state after 20 failure signals — more than the claimed
bound of 10 distinct URL/provider resolutions.  Moreover, for the real
`Temperatura del mar` definition, whose matrix candidate list
`[Level7, Level8, Level7]` contains `Level7` twice, already-tried
`(date, matrix)` pairs *are* re-issued: the run's re-issued pair list is not
duplicate-free (`("2025-01-04", Level7)` is re-issued in both `Level7`
phases), refuting the never-repeats conjunct as well. -/
theorem C1_counterexample :
    (runResolutions precipCfg (matrixCandidates precipCfg) envNoKey 20 initState).length
        = 14 ∧
    isExhausted precipCfg (matrixCandidates precipCfg)
      (stateAfter precipCfg (matrixCandidates precipCfg) envNoKey 20 initState) ∧
    precipCfg.tryDates.length + (matrixCandidates precipCfg).length
        + precipCfg.alt.length = 10 ∧
    ¬ (14 : Nat) ≤ 10 ∧
    matrixCandidates seaTempCfg
        = ["GoogleMapsCompatible_Level7", "GoogleMapsCompatible_Level8",
           "GoogleMapsCompatible_Level7"] ∧
    ¬ (runPairs seaTempCfg (matrixCandidates seaTempCfg) envNoKey 20
        initState).Nodup := by
  refine ⟨by decide, by decide, by decide, by decide, by decide, by decide⟩

/-- C1 (amended): over any number of failure signals from the initial state,
the fallback policy performs at most `N * M - 1` URL re-issues plus
`|alternates|` alternate resolutions — `N * M - 1 + |alternates|` in total —
and never re-issues the same `(date index, matrix index)` position twice;
every re-issue substitutes exactly the date and matrix candidate addressed by
its index position, so when the date and matrix candidate lists have no
duplicate entries no `(date, matrix)` pair is re-issued twice (whereas a
duplicated matrix candidate, as in `Temperatura del mar`, makes the same pair
recur). -/
theorem C1_amended_thm (cfg : WmtsCfg) (mats : List String) (env : Env)
    (fuel : Nat) (hN : 0 < cfg.tryDates.length) (hM : 0 < mats.length) :
    (runResolutions cfg mats env fuel initState).length
        ≤ cfg.tryDates.length * mats.length - 1 + cfg.alt.length ∧
    (runPairsIdx cfg mats env fuel initState).Nodup ∧
    runPairs cfg mats env fuel initState
      = (runPairsIdx cfg mats env fuel initState).map
          (fun dm => (cfg.tryDates.getD dm.1 "", mats.getD dm.2 "")) := by
  refine ⟨?_, ?_, ?_⟩
  · have h := @runRes_bound cfg mats env hN fuel initState (by simp [initState])
    have e : fbMeasure cfg mats initState
        = cfg.tryDates.length * mats.length - 1 + cfg.alt.length := by
      obtain ⟨m, hm⟩ : ∃ m, mats.length = m + 1 := ⟨mats.length - 1, by omega⟩
      have h2 : mats.length - 1 - 0 = m := by omega
      simp only [fbMeasure, initState]
      rw [h2, hm, Nat.mul_succ]
      omega
    omega
  · exact runPairsIdx_nodup hN fuel initState
      (by simpa [initState] using hN) (by simpa [initState] using hM)
  · exact runPairs_eq_map_idx hN fuel initState
      (by simpa [initState] using hN) (by simpa [initState] using hM)

theorem C1_witness :
    (runResolutions precipCfg (matrixCandidates precipCfg) envFull 20 initState).length
        ≤ precipCfg.tryDates.length * (matrixCandidates precipCfg).length - 1
          + precipCfg.alt.length ∧
    (runPairsIdx precipCfg (matrixCandidates precipCfg) envFull 20 initState).Nodup ∧
    runPairs precipCfg (matrixCandidates precipCfg) envFull 20 initState
      = (runPairsIdx precipCfg (matrixCandidates precipCfg) envFull 20 initState).map
          (fun dm => (precipCfg.tryDates.getD dm.1 "",
            (matrixCandidates precipCfg).getD dm.2 "")) :=
  C1_amended_thm precipCfg (matrixCandidates precipCfg) envFull 20
    (by decide) (by decide)

/-- C2: on each failure signal the policy advances in strict precedence order:
while dates remain it advances to the next older date and re-issues with the
same matrix; once dates are exhausted it advances to the next coarser matrix,
resets the date index to 0 and re-issues with the first date; only once both
are exhausted does it advance through the alternate list (date and matrix
indices untouched, alternate index advanced past the consumed alternate, and
no URL re-issue). -/
theorem C2_thm (cfg : WmtsCfg) (mats : List String) (env : Env)
    (s : FallbackState) :
    (s.attemptDate + 1 < cfg.tryDates.length →
      tileerrorStep cfg mats env s =
        { state := { s with attemptDate := s.attemptDate + 1 },
          resolutions := [ProviderRes.reissue
            (cfg.tryDates.getD (s.attemptDate + 1) "") (mats.getD s.matrixIdx "")],
          registryWrites := [], mapOps := [], logs := [] }) ∧
    (¬ s.attemptDate + 1 < cfg.tryDates.length → s.matrixIdx + 1 < mats.length →
      tileerrorStep cfg mats env s =
        { state := { s with matrixIdx := s.matrixIdx + 1, attemptDate := 0 },
          resolutions := [ProviderRes.reissue
            (cfg.tryDates.getD 0 "") (mats.getD (s.matrixIdx + 1) "")],
          registryWrites := [], mapOps := [], logs := [] }) ∧
    (¬ s.attemptDate + 1 < cfg.tryDates.length → ¬ s.matrixIdx + 1 < mats.length →
      (tileerrorStep cfg mats env s).state.attemptDate = s.attemptDate ∧
      (tileerrorStep cfg mats env s).state.matrixIdx = s.matrixIdx ∧
      s.altIdx ≤ (tileerrorStep cfg mats env s).state.altIdx ∧
      (s.altIdx < cfg.alt.length →
        s.altIdx + 1 ≤ (tileerrorStep cfg mats env s).state.altIdx) ∧
      stepPairs (tileerrorStep cfg mats env s) = []) := by
  refine ⟨?_, ?_, ?_⟩
  · intro h1
    unfold tileerrorStep
    rw [go_date _ h1]
  · intro h1 h2
    unfold tileerrorStep
    rw [go_matrix _ h1 h2]
  · intro h1 h2
    have h := @go_alt_phase cfg mats env (cfg.alt.drop s.altIdx) s h1 h2
    refine ⟨h.1, h.2.1, h.2.2.1, fun ha => h.2.2.2.2.1 ?_, h.2.2.2.2.2.2⟩
    have : 0 < (cfg.alt.drop s.altIdx).length := by
      rw [List.length_drop]; omega
    exact List.length_pos.mp this

theorem C2_witness :
    tileerrorStep precipCfg (matrixCandidates precipCfg) envNoKey initState =
      { state := ⟨1, 0, 0⟩,
        resolutions := [ProviderRes.reissue "2025-01-04" "GoogleMapsCompatible_Level9"],
        registryWrites := [], mapOps := [], logs := [] } := by
  have h := (C2_thm precipCfg (matrixCandidates precipCfg) envNoKey initState).1
    (by decide)
  rw [h]
  decide

/-- C3 counterexample: the date-attempt component of the fallback state
decreases on the fifth failure signal (the matrix advance resets it from 4 to
0), so the state is not advanced monotonically component-wise. -/
theorem C3_counterexample :
    (stateAfter precipCfg (matrixCandidates precipCfg) envNoKey 5 initState).attemptDate
      < (stateAfter precipCfg (matrixCandidates precipCfg) envNoKey 4
          initState).attemptDate := by
  decide

/-- C3 (amended): on every failure-signal transition the matrix and alternate
indices never decrease; the date-attempt index decreases only on a matrix
advance, which resets it to 0; and from every non-exhausted state the triple
`(altIdx, matrixIdx, attemptDate)` strictly increases in lexicographic
order. -/
theorem C3_amended_thm (cfg : WmtsCfg) (mats : List String) (env : Env)
    (s : FallbackState) :
    s.matrixIdx ≤ (tileerrorStep cfg mats env s).state.matrixIdx ∧
    s.altIdx ≤ (tileerrorStep cfg mats env s).state.altIdx ∧
    ((tileerrorStep cfg mats env s).state.attemptDate < s.attemptDate →
      (tileerrorStep cfg mats env s).state.matrixIdx = s.matrixIdx + 1 ∧
      (tileerrorStep cfg mats env s).state.attemptDate = 0) ∧
    (¬ isExhausted cfg mats s →
      s.altIdx < (tileerrorStep cfg mats env s).state.altIdx ∨
        ((tileerrorStep cfg mats env s).state.altIdx = s.altIdx ∧
          (s.matrixIdx < (tileerrorStep cfg mats env s).state.matrixIdx ∨
            ((tileerrorStep cfg mats env s).state.matrixIdx = s.matrixIdx ∧
              s.attemptDate < (tileerrorStep cfg mats env s).state.attemptDate)))) := by
  unfold tileerrorStep
  by_cases h1 : s.attemptDate + 1 < cfg.tryDates.length
  · rw [go_date _ h1]
    refine ⟨le_refl _, le_refl _, by dsimp only; omega, fun _ => ?_⟩
    right
    exact ⟨rfl, Or.inr ⟨rfl, by dsimp only; omega⟩⟩
  · by_cases h2 : s.matrixIdx + 1 < mats.length
    · rw [go_matrix _ h1 h2]
      refine ⟨by dsimp only; omega, le_refl _, fun _ => ⟨rfl, rfl⟩, fun _ => ?_⟩
      right
      exact ⟨rfl, Or.inl (by dsimp only; omega)⟩
    · have h := @go_alt_phase cfg mats env (cfg.alt.drop s.altIdx) s h1 h2
      refine ⟨le_of_eq h.2.1.symm, h.2.2.1, fun hlt => absurd hlt (by rw [h.1]; omega),
        fun hne => ?_⟩
      left
      apply h.2.2.2.2.1
      have ha : s.altIdx < cfg.alt.length := by
        by_contra hc
        exact hne ⟨h1, h2, hc⟩
      have : 0 < (cfg.alt.drop s.altIdx).length := by
        rw [List.length_drop]; omega
      exact List.length_pos.mp this

theorem C3_witness :
    (⟨4, 0, 0⟩ : FallbackState).altIdx
        < (tileerrorStep precipCfg (matrixCandidates precipCfg) envNoKey
            ⟨4, 0, 0⟩).state.altIdx ∨
      ((tileerrorStep precipCfg (matrixCandidates precipCfg) envNoKey
            ⟨4, 0, 0⟩).state.altIdx = (⟨4, 0, 0⟩ : FallbackState).altIdx ∧
        ((⟨4, 0, 0⟩ : FallbackState).matrixIdx
            < (tileerrorStep precipCfg (matrixCandidates precipCfg) envNoKey
                ⟨4, 0, 0⟩).state.matrixIdx ∨
          ((tileerrorStep precipCfg (matrixCandidates precipCfg) envNoKey
                ⟨4, 0, 0⟩).state.matrixIdx = (⟨4, 0, 0⟩ : FallbackState).matrixIdx ∧
            (⟨4, 0, 0⟩ : FallbackState).attemptDate
              < (tileerrorStep precipCfg (matrixCandidates precipCfg) envNoKey
                  ⟨4, 0, 0⟩).state.attemptDate))) :=
  (C3_amended_thm precipCfg (matrixCandidates precipCfg) envNoKey ⟨4, 0, 0⟩).2.2.2
    (by decide)

/-- C5: once the fallback state is exhausted, every further failure signal
leaves the state unchanged and performs no URL/provider resolution, no
registry write and no map operation (it only logs the exhaustion notice). -/
theorem C5_thm (cfg : WmtsCfg) (mats : List String) (env : Env)
    (s : FallbackState) (h : isExhausted cfg mats s) :
    tileerrorStep cfg mats env s =
      { state := s, resolutions := [], registryWrites := [], mapOps := [],
        logs := [LogEvent.exhausted] } := by
  obtain ⟨h1, h2, h3⟩ := h
  unfold tileerrorStep
  have hdrop : cfg.alt.drop s.altIdx = [] := List.drop_eq_nil_of_le (by omega)
  rw [hdrop, go_nil h1 h2]

theorem C5_witness :
    tileerrorStep precipCfg (matrixCandidates precipCfg) envNoKey ⟨4, 2, 2⟩ =
      { state := ⟨4, 2, 2⟩, resolutions := [], registryWrites := [], mapOps := [],
        logs := [LogEvent.exhausted] } :=
  C5_thm precipCfg (matrixCandidates precipCfg) envNoKey ⟨4, 2, 2⟩ (by decide)

/-- C6: when the alternate reached is a keyed OpenWeatherMap provider and no
API key is configured, the handler logs the missing credential, builds no
OpenWeatherMap layer at all, and advances the alternate index past the skipped
provider. -/
theorem C6_thm (cfg : WmtsCfg) (mats : List String) (env : Env)
    (s : FallbackState) (lyr : String)
    (h1 : ¬ s.attemptDate + 1 < cfg.tryDates.length)
    (h2 : ¬ s.matrixIdx + 1 < mats.length)
    (ha : s.altIdx < cfg.alt.length)
    (hcand : cfg.alt.get ⟨s.altIdx, ha⟩ = AltProvider.openweathermap lyr)
    (hk : env.owmKey = none) :
    LogEvent.missingCredential ∈ (tileerrorStep cfg mats env s).logs ∧
    (∀ u, ProviderRes.altOwm u ∉ (tileerrorStep cfg mats env s).resolutions) ∧
    s.altIdx + 1 ≤ (tileerrorStep cfg mats env s).state.altIdx := by
  unfold tileerrorStep
  have hget : cfg.alt[s.altIdx] = AltProvider.openweathermap lyr :=
    (List.get_eq_getElem cfg.alt ⟨s.altIdx, ha⟩).symm.trans hcand
  have hdrop : cfg.alt.drop s.altIdx
      = AltProvider.openweathermap lyr :: cfg.alt.drop (s.altIdx + 1) := by
    rw [List.drop_eq_getElem_cons ha, hget]
  rw [hdrop, go_owm_nokey _ h1 h2 hk]
  refine ⟨by simp, ?_, ?_⟩
  · intro u
    exact go_nokey_no_owm hk (cfg.alt.drop (s.altIdx + 1))
      { s with altIdx := s.altIdx + 1 } u
  · have h := (@go_alt_phase cfg mats env (cfg.alt.drop (s.altIdx + 1))
      { s with altIdx := s.altIdx + 1 } h1 h2).2.2.1
    dsimp only at h ⊢
    omega

theorem C6_witness :
    LogEvent.missingCredential
        ∈ (tileerrorStep precipCfg (matrixCandidates precipCfg) envNoKey
            ⟨4, 2, 0⟩).logs ∧
    (∀ u, ProviderRes.altOwm u
        ∉ (tileerrorStep precipCfg (matrixCandidates precipCfg) envNoKey
            ⟨4, 2, 0⟩).resolutions) ∧
    (⟨4, 2, 0⟩ : FallbackState).altIdx + 1
        ≤ (tileerrorStep precipCfg (matrixCandidates precipCfg) envNoKey
            ⟨4, 2, 0⟩).state.altIdx :=
  C6_thm precipCfg (matrixCandidates precipCfg) envNoKey ⟨4, 2, 0⟩
    "precipitation_new" (by decide) (by decide) (by decide) (by decide) (by decide)

end Climetrica

namespace Climetrica

/-! ### Registry lookup facts -/

theorem lookup_setEntry_self (reg : List (String × Nat)) (name : String) (v : Nat) :
    List.lookup name (setEntry reg name v) = some v := by
  induction reg with
  | nil => simp [setEntry, List.lookup_cons]
  | cons kv rest IH =>
    obtain ⟨k, v0⟩ := kv
    by_cases h : k = name
    · subst h
      simp [setEntry, List.lookup_cons]
    · simp [setEntry, h, List.lookup_cons, beq_false_of_ne (Ne.symm h), IH]

theorem lookup_setEntry_other (reg : List (String × Nat)) {name other : String}
    (v : Nat) (hne : other ≠ name) :
    List.lookup other (setEntry reg name v) = List.lookup other reg := by
  induction reg with
  | nil => simp [setEntry, List.lookup_cons, beq_false_of_ne hne, List.lookup]
  | cons kv rest IH =>
    obtain ⟨k, v0⟩ := kv
    by_cases h : k = name
    · subst h
      simp [setEntry, List.lookup_cons, beq_false_of_ne hne]
    · by_cases h2 : other = k
      · subst h2
        simp [setEntry, h, List.lookup_cons]
      · simp [setEntry, h, List.lookup_cons, beq_false_of_ne h2, IH]

/-- C4 counterexample: the probe sample set at centre tile `(10, 10)`, zoom 6,
has only four tiles and does not contain the northern neighbour `(10, 9)`,
which the claimed "center tile plus its four neighbors" set contains. -/
theorem C4_counterexample :
    ((6 : Nat), (10 : Int), (9 : Int)) ∈ probeCoordsSpecFive 6 10 10 ∧
    ((6 : Nat), (10 : Int), (9 : Int)) ∉ probeCoords 6 10 10 ∧
    (probeCoords 6 10 10).length = 4 ∧
    (probeCoordsSpecFive 6 10 10).length = 5 := by
  refine ⟨by decide, by decide, by decide, by decide⟩

theorem probeCoords_nodup (z : Nat) (cx cy : Int) : (probeCoords z cx cy).Nodup := by
  simp [probeCoords, Prod.mk.injEq]
  omega

theorem probeCoords_mem_iff (z : Nat) (cx cy : Int) (t : Nat × Int × Int) :
    t ∈ probeCoords z cx cy ↔
      (t = (z, cx, cy) ∨ t = (z, cx + 1, cy) ∨ t = (z, cx, cy + 1) ∨
        t = (z, cx - 1, cy)) := by
  simp [probeCoords]

/-- At the map centre `(0, 0)` the projection puts the centre tile at
`(32, 32)` of the zoom-6 grid: `tan 0 = 0`, `cos 0 = 1`, `log 1 = 0`. -/
theorem latLngToTile_origin : latLngToTile 0 0 6 = (32, 32) := by
  unfold latLngToTile
  have h1 : (0 : ℝ) * Real.pi / 180 = 0 := by ring
  rw [h1, Real.tan_zero, Real.cos_zero, Prod.mk.injEq]
  constructor
  · norm_num
  · norm_num [Real.log_one]

/-- C4 (amended): for every map centre `(lat, lon)`, current zoom and nonzero
provider max zoom, the prober samples exactly the centre tile plus three of
its four neighbours — east `(x+1, y)`, south `(x, y+1)` and west `(x-1, y)`,
omitting the northern tile — all distinct, at zoom level
`z' = min(currentZoom, provider maxZoom, 6)`, where the centre tile is
`latLngToTile lat lon z'`: its column is `⌊(lon + 180)/360 · 2^z'⌋` (from the
longitude) and its row is the floor of the Mercator-inverse of the latitude
scaled to the `2^z'` grid. -/
theorem C4_amended_thm (lat lon : ℝ) (cz mz : Nat) (hmz : 0 < mz) :
    (probeSample lat lon cz (some mz)).Nodup ∧
    (∀ t, t ∈ probeSample lat lon cz (some mz) ↔
      (t = (zProbe cz (some mz), (latLngToTile lat lon (zProbe cz (some mz))).1,
            (latLngToTile lat lon (zProbe cz (some mz))).2) ∨
       t = (zProbe cz (some mz),
            (latLngToTile lat lon (zProbe cz (some mz))).1 + 1,
            (latLngToTile lat lon (zProbe cz (some mz))).2) ∨
       t = (zProbe cz (some mz), (latLngToTile lat lon (zProbe cz (some mz))).1,
            (latLngToTile lat lon (zProbe cz (some mz))).2 + 1) ∨
       t = (zProbe cz (some mz),
            (latLngToTile lat lon (zProbe cz (some mz))).1 - 1,
            (latLngToTile lat lon (zProbe cz (some mz))).2))) ∧
    zProbe cz (some mz) = min (min cz mz) 6 ∧
    (latLngToTile lat lon (zProbe cz (some mz))).1
        = ⌊(lon + 180) / 360 * (2 : ℝ) ^ zProbe cz (some mz)⌋ ∧
    (latLngToTile lat lon (zProbe cz (some mz))).2
        = ⌊(1 - Real.log (Real.tan (lat * Real.pi / 180)
              + 1 / Real.cos (lat * Real.pi / 180)) / Real.pi) / 2
            * (2 : ℝ) ^ zProbe cz (some mz)⌋ := by
  refine ⟨?_, ?_, ?_, rfl, rfl⟩
  · exact probeCoords_nodup _ _ _
  · intro t
    exact probeCoords_mem_iff _ _ _ t
  · simp [zProbe, hmz.ne']

theorem C4_witness :
    ((6 : Nat), (32 : Int), (32 : Int)) ∈ probeSample 0 0 6 (some 10) ∧
    (probeSample 0 0 6 (some 10)).Nodup ∧
    zProbe 6 (some 10) = min (min 6 10) 6 := by
  have h := C4_amended_thm 0 0 6 10 (by decide)
  refine ⟨?_, h.1, h.2.2.1⟩
  apply (h.2.1 ((6 : Nat), (32 : Int), (32 : Int))).mpr
  left
  have hz : zProbe 6 (some 10) = 6 := by decide
  rw [hz, latLngToTile_origin]

/-- C7 counterexample: a probe-driven switch for the currently active variable
replaces the registry entry but does not mount the new layer (the map is left
untouched), contradicting "mounts the new layer … if and only if that variable
is the currently active one". -/
theorem C7_counterexample :
    (probeSwitchResolve ⟨[("Precipitación", 1)], [1], "Precipitación"⟩
        "Precipitación" 2).activeVar = "Precipitación" ∧
    List.lookup "Precipitación"
        (probeSwitchResolve ⟨[("Precipitación", 1)], [1], "Precipitación"⟩
          "Precipitación" 2).registry = some 2 ∧
    (2 : Nat) ∉ (probeSwitchResolve ⟨[("Precipitación", 1)], [1], "Precipitación"⟩
        "Precipitación" 2).mounted := by
  refine ⟨by decide, by decide, by decide⟩

/-- C7 (amended): a reactive (`tileerror`-driven) alternate swap replaces the
variable's registry entry, leaves every other variable's entry untouched,
mounts the new layer if and only if the variable is currently the active one,
removes the old layer from the map, and touches no other layer; a probe-driven
switch replaces the registry entry (other entries untouched) and never touches
the map. -/
theorem C7_amended_thm (w : SwapWorld) (name other : String) (oldL newL : Nat)
    (hnew : newL ∉ w.mounted) (hdiff : oldL ≠ newL) (hnd : w.mounted.Nodup) :
    List.lookup name (altSwapResolve w name oldL newL).registry = some newL ∧
    (other ≠ name → List.lookup other (altSwapResolve w name oldL newL).registry
        = List.lookup other w.registry) ∧
    (newL ∈ (altSwapResolve w name oldL newL).mounted ↔ w.activeVar = name) ∧
    oldL ∉ (altSwapResolve w name oldL newL).mounted ∧
    (∀ l, l ≠ oldL → l ≠ newL →
      (l ∈ (altSwapResolve w name oldL newL).mounted ↔ l ∈ w.mounted)) ∧
    List.lookup name (probeSwitchResolve w name newL).registry = some newL ∧
    (other ≠ name → List.lookup other (probeSwitchResolve w name newL).registry
        = List.lookup other w.registry) ∧
    (probeSwitchResolve w name newL).mounted = w.mounted := by
  refine ⟨lookup_setEntry_self w.registry name newL,
    fun hne => lookup_setEntry_other w.registry newL hne, ?_, ?_, ?_,
    lookup_setEntry_self w.registry name newL,
    fun hne => lookup_setEntry_other w.registry newL hne, rfl⟩
  · simp only [altSwapResolve, List.mem_append]
    constructor
    · intro hmem
      cases hmem with
      | inl hmem =>
        by_cases hm : oldL ∈ w.mounted
        · rw [if_pos hm] at hmem
          exact absurd (List.mem_of_mem_erase hmem) hnew
        · rw [if_neg hm] at hmem
          exact absurd hmem hnew
      | inr hmem =>
        by_cases hact : w.activeVar = name
        · exact hact
        · rw [if_neg hact] at hmem
          simp at hmem
    · intro hact
      right
      rw [if_pos hact]
      exact List.mem_singleton.mpr rfl
  · simp only [altSwapResolve, List.mem_append, not_or]
    constructor
    · by_cases hm : oldL ∈ w.mounted
      · rw [if_pos hm]
        intro hmem
        exact absurd ((hnd.mem_erase_iff).mp hmem).1 (by simp)
      · rw [if_neg hm]
        exact hm
    · by_cases hact : w.activeVar = name
      · rw [if_pos hact]
        simpa using hdiff
      · rw [if_neg hact]
        simp
  · intro l hlo hln
    simp only [altSwapResolve, List.mem_append]
    constructor
    · intro hmem
      cases hmem with
      | inl hmem =>
        by_cases hm : oldL ∈ w.mounted
        · rw [if_pos hm] at hmem
          exact List.mem_of_mem_erase hmem
        · rw [if_neg hm] at hmem
          exact hmem
      | inr hmem =>
        by_cases hact : w.activeVar = name
        · rw [if_pos hact] at hmem
          exact absurd (List.mem_singleton.mp hmem) hln
        · rw [if_neg hact] at hmem
          simp at hmem
    · intro hmem
      left
      by_cases hm : oldL ∈ w.mounted
      · rw [if_pos hm]
        exact (hnd.mem_erase_iff).mpr ⟨hlo, hmem⟩
      · rw [if_neg hm]
        exact hmem

theorem C7_witness :
    List.lookup "Precipitación"
        (altSwapResolve ⟨[("Precipitación", 1)], [1], "Precipitación"⟩
          "Precipitación" 1 2).registry = some 2 ∧
    ((2 : Nat) ∈ (altSwapResolve ⟨[("Precipitación", 1)], [1], "Precipitación"⟩
        "Precipitación" 1 2).mounted ↔
      (⟨[("Precipitación", 1)], [1], "Precipitación"⟩ : SwapWorld).activeVar
        = "Precipitación") ∧
    (1 : Nat) ∉ (altSwapResolve ⟨[("Precipitación", 1)], [1], "Precipitación"⟩
        "Precipitación" 1 2).mounted :=
  ⟨(C7_amended_thm ⟨[("Precipitación", 1)], [1], "Precipitación"⟩ "Precipitación"
      "x" 1 2 (by decide) (by decide) (by decide)).1,
   (C7_amended_thm ⟨[("Precipitación", 1)], [1], "Precipitación"⟩ "Precipitación"
      "x" 1 2 (by decide) (by decide) (by decide)).2.2.1,
   (C7_amended_thm ⟨[("Precipitación", 1)], [1], "Precipitación"⟩ "Precipitación"
      "x" 1 2 (by decide) (by decide) (by decide)).2.2.2.1⟩

/-- C8 counterexample: on the empty coordinate set the JS division `0/0`
yields `NaN` (modelled `none`), so the prober does not return a value in
`[0, 1]` for every coordinate set. -/
theorem C8_counterexample : probeTiles [] = none := rfl

/-- C8 (amended): for every nonempty coordinate set (the prober's own sample
set always has four coordinates) the prober totally resolves every per-tile
sample to hit or miss — a decode failure or a fetch that has not loaded within
the 3000 ms timeout counts as a miss — and returns the fraction of hits, a
rational in `[0, 1]`, whatever the network behaviour. -/
theorem C8_amended_thm (outcomes : List TileFetch) (hne : outcomes ≠ []) :
    (∃ q, probeTiles outcomes = some q ∧ 0 ≤ q ∧ q ≤ 1) ∧
    (∀ t, probeTimeoutMs ≤ t → sampleHit (TileFetch.loadsAt t) = false) ∧
    (∀ t, sampleHit (TileFetch.errorsAt t) = false) ∧
    sampleHit TileFetch.hangs = false := by
  refine ⟨?_, ?_, fun t => rfl, rfl⟩
  · have hlen : outcomes.length ≠ 0 := fun h0 => hne (List.length_eq_zero.mp h0)
    refine ⟨((outcomes.countP fun b => sampleHit b : Nat) : ℚ)
      / (outcomes.length : ℚ), ?_, ?_, ?_⟩
    · simp only [probeTiles, jsDivNat]
      rw [if_neg hlen]
    · positivity
    · rw [div_le_one (by positivity)]
      exact_mod_cast List.countP_le_length fun b => sampleHit b
  · intro t ht
    simp only [sampleHit, decide_eq_false_iff_not]
    omega

theorem C8_witness :
    (∃ q, probeTiles [TileFetch.loadsAt 0, TileFetch.hangs] = some q ∧
      0 ≤ q ∧ q ≤ 1) ∧
    (∀ t, probeTimeoutMs ≤ t → sampleHit (TileFetch.loadsAt t) = false) ∧
    (∀ t, sampleHit (TileFetch.errorsAt t) = false) ∧
    sampleHit TileFetch.hangs = false :=
  C8_amended_thm [TileFetch.loadsAt 0, TileFetch.hangs] (by decide)

/-- C9: when `climateData` or `userInfo` is `null` or `undefined`,
`saveClimateData` resolves with
`{ success: false, error: 'Faltan datos requeridos para guardar' }` and issues
no backend POST. -/
theorem C9_thm {α β : Type} (cd : JSArg α) (ui : JSArg β)
    (resp : Except String String)
    (h : cd = JSArg.jsNull ∨ cd = JSArg.jsUndefined ∨ ui = JSArg.jsNull ∨
      ui = JSArg.jsUndefined) :
    saveClimateData cd ui resp =
      ({ success := false, error := some "Faltan datos requeridos para guardar",
         data := none }, []) := by
  unfold saveClimateData
  have hf : cd.truthy = false ∨ ui.truthy = false := by
    rcases h with h | h | h | h <;> subst h <;> simp [JSArg.truthy]
  rw [if_pos hf]

theorem C9_witness :
    saveClimateData (JSArg.jsNull : JSArg Unit) (JSArg.value () : JSArg Unit)
        (Except.ok "saved") =
      ({ success := false, error := some "Faltan datos requeridos para guardar",
         data := none }, []) :=
  C9_thm JSArg.jsNull (JSArg.value ()) (Except.ok "saved") (Or.inl rfl)

end Climetrica

namespace Climetrica

/-! ### aggregateSeries facts -/

/-- All values recorded for date `d` across the input series, in visit
order. -/
def valuesForDate (seriesArray : List (List SeriesPoint)) (d : String) :
    List ℚ :=
  (seriesArray.flatten.filter fun q => q.1 == d).map Prod.snd

theorem buildDateMap_append_single (rows : List SeriesPoint) (p : SeriesPoint) :
    buildDateMap (rows ++ [p]) = pushVal (buildDateMap rows) p.1 p.2 := by
  simp [buildDateMap, List.foldl_append]

theorem keys_pushVal (m : List (String × List ℚ)) (d : String) (v : ℚ) :
    (pushVal m d v).map Prod.fst =
      if d ∈ m.map Prod.fst then m.map Prod.fst else m.map Prod.fst ++ [d] := by
  induction m with
  | nil => simp [pushVal]
  | cons kv rest IH =>
    obtain ⟨k, vs⟩ := kv
    by_cases h : k = d
    · subst h
      simp [pushVal]
    · simp only [pushVal, if_neg h, List.map_cons, IH]
      by_cases h2 : d ∈ rest.map Prod.fst
      · rw [if_pos h2, if_pos (by simp [h2])]
      · rw [if_neg h2, if_neg (by simp [h2, Ne.symm h]), List.cons_append]

theorem keys_buildDateMap_nodup (rows : List SeriesPoint) :
    ((buildDateMap rows).map Prod.fst).Nodup := by
  induction rows using List.reverseRecOn with
  | nil => simp [buildDateMap]
  | append_singleton rows p IH =>
    rw [buildDateMap_append_single, keys_pushVal]
    by_cases h : p.1 ∈ (buildDateMap rows).map Prod.fst
    · rw [if_pos h]; exact IH
    · rw [if_neg h]
      exact IH.append (List.nodup_singleton p.1)
        (List.disjoint_singleton.mpr h)

theorem lookup_pushVal_self (m : List (String × List ℚ)) (d : String) (v : ℚ) :
    List.lookup d (pushVal m d v) = some ((List.lookup d m).getD [] ++ [v]) := by
  induction m with
  | nil => simp [pushVal, List.lookup_cons]
  | cons kv rest IH =>
    obtain ⟨k, vs⟩ := kv
    by_cases h : k = d
    · subst h
      simp [pushVal, List.lookup_cons]
    · simp [pushVal, h, List.lookup_cons, beq_false_of_ne (Ne.symm h), IH]

theorem lookup_pushVal_other (m : List (String × List ℚ)) {d e : String}
    (v : ℚ) (hne : e ≠ d) :
    List.lookup e (pushVal m d v) = List.lookup e m := by
  induction m with
  | nil => simp [pushVal, List.lookup_cons, beq_false_of_ne hne, List.lookup]
  | cons kv rest IH =>
    obtain ⟨k, vs⟩ := kv
    by_cases h : k = d
    · subst h
      simp [pushVal, List.lookup_cons, beq_false_of_ne hne]
    · by_cases h2 : e = k
      · subst h2
        simp [pushVal, h, List.lookup_cons]
      · simp [pushVal, h, List.lookup_cons, beq_false_of_ne h2, IH]

theorem lookup_buildDateMap (rows : List SeriesPoint) (d : String) :
    (List.lookup d (buildDateMap rows)).getD []
        = (rows.filter fun q => q.1 == d).map Prod.snd ∧
    ((List.lookup d (buildDateMap rows)).isSome ↔ d ∈ rows.map Prod.fst) := by
  induction rows using List.reverseRecOn with
  | nil => simp [buildDateMap, List.lookup]
  | append_singleton rows p IH =>
    rw [buildDateMap_append_single]
    obtain ⟨IH1, IH2⟩ := IH
    by_cases hp : p.1 = d
    · rw [hp, lookup_pushVal_self]
      constructor
      · simp only [Option.getD_some, IH1, List.filter_append, List.map_append]
        congr 1
        simp [hp]
      · simp [hp]
    · rw [lookup_pushVal_other _ p.2 (fun h => hp h.symm)]
      constructor
      · rw [IH1, List.filter_append]
        have : List.filter (fun q => q.1 == d) [p] = [] := by
          simp [List.filter, beq_false_of_ne hp]
        rw [this, List.append_nil]
      · rw [IH2]
        simp [Ne.symm hp]

theorem mem_iff_lookup {m : List (String × List ℚ)}
    (hnd : (m.map Prod.fst).Nodup) {e : String} {vs : List ℚ} :
    (e, vs) ∈ m ↔ List.lookup e m = some vs := by
  induction m with
  | nil => simp [List.lookup]
  | cons kv rest IH =>
    obtain ⟨k, v0⟩ := kv
    simp only [List.map_cons, List.nodup_cons] at hnd
    obtain ⟨hk, hrest⟩ := hnd
    by_cases h : e = k
    · subst h
      simp only [List.mem_cons, List.lookup_cons, beq_self_eq_true]
      constructor
      · intro hmem
        cases hmem with
        | inl hh => rw [(Prod.mk.injEq _ _ _ _).mp hh |>.2]
        | inr hh => exact absurd (List.mem_map_of_mem Prod.fst hh) hk
      · intro hh
        left
        simp only [Option.some.injEq] at hh
        rw [hh]
    · simp only [List.mem_cons, List.lookup_cons, beq_false_of_ne h]
      rw [IH hrest]
      constructor
      · intro hmem
        cases hmem with
        | inl hh => exact absurd ((Prod.mk.injEq _ _ _ _).mp hh).1 h
        | inr hh => exact hh
      · exact Or.inr

theorem aggregateSeries_eq_of_two (sa : List (List SeriesPoint))
    (h : 2 ≤ sa.length) :
    aggregateSeries sa =
      ((buildDateMap sa.flatten).insertionSort dateKeyLE).map
        fun g => (g.1, toFixed2 (g.2.foldl (· + ·) 0 / (g.2.length : ℚ))) := by
  match sa, h with
  | a :: b :: rest, _ => rfl

end Climetrica

namespace Climetrica

theorem lookup_isSome_iff {m : List (String × List ℚ)} {d : String} :
    (List.lookup d m).isSome ↔ d ∈ m.map Prod.fst := by
  induction m with
  | nil => simp [List.lookup]
  | cons kv rest IH =>
    obtain ⟨k, v⟩ := kv
    by_cases h : d = k
    · subst h
      simp [List.lookup_cons]
    · simp [List.lookup_cons, beq_false_of_ne h, IH, h]

/-- C10: `aggregateSeries` returns `[]` for no series and a singleton input's
series unchanged; for two or more series it returns exactly one entry per
distinct date occurring in any input series, whose value is the arithmetic
mean of all values recorded for that date rounded to two decimal places, with
the entries sorted in ascending lexicographic order of date string. -/
theorem C10_thm :
    aggregateSeries [] = [] ∧
    (∀ s, aggregateSeries [s] = s) ∧
    (∀ sa, 2 ≤ sa.length →
      ((aggregateSeries sa).map Prod.fst).Nodup ∧
      (∀ d, d ∈ (aggregateSeries sa).map Prod.fst ↔ d ∈ sa.flatten.map Prod.fst) ∧
      (∀ p ∈ aggregateSeries sa,
        p.2 = toFixed2 ((valuesForDate sa p.1).foldl (· + ·) 0
          / ((valuesForDate sa p.1).length : ℚ))) ∧
      ((aggregateSeries sa).map Prod.fst).Sorted (· ≤ ·)) := by
  refine ⟨rfl, fun s => rfl, fun sa hsa => ?_⟩
  rw [aggregateSeries_eq_of_two sa hsa]
  have hperm : List.Perm ((buildDateMap sa.flatten).insertionSort dateKeyLE)
      (buildDateMap sa.flatten) :=
    List.perm_insertionSort dateKeyLE (buildDateMap sa.flatten)
  have hkeysnodup : ((buildDateMap sa.flatten).map Prod.fst).Nodup :=
    keys_buildDateMap_nodup sa.flatten
  have hkeys : ∀ (l : List (String × List ℚ)),
      (l.map fun g => (g.1, toFixed2 (g.2.foldl (· + ·) 0
        / (g.2.length : ℚ)))).map Prod.fst = l.map Prod.fst := by
    intro l
    rw [List.map_map]
    rfl
  refine ⟨?_, ?_, ?_, ?_⟩
  · rw [hkeys]
    exact ((hperm.map Prod.fst).nodup_iff).mpr hkeysnodup
  · intro d
    rw [hkeys, (hperm.map Prod.fst).mem_iff, ← lookup_isSome_iff]
    exact (lookup_buildDateMap sa.flatten d).2
  · intro p hp
    obtain ⟨g, hg, hfg⟩ := List.mem_map.mp hp
    have hgm : g ∈ buildDateMap sa.flatten := hperm.mem_iff.mp hg
    have hlook : List.lookup g.1 (buildDateMap sa.flatten) = some g.2 := by
      rw [← mem_iff_lookup hkeysnodup]
      exact hgm
    have hvals : g.2 = valuesForDate sa g.1 := by
      have h1 := (lookup_buildDateMap sa.flatten g.1).1
      rw [hlook] at h1
      simp only [Option.getD_some] at h1
      exact h1
    rw [← hfg]
    simp only
    rw [hvals]
  · rw [hkeys]
    have hsorted : List.Sorted dateKeyLE
        ((buildDateMap sa.flatten).insertionSort dateKeyLE) :=
      List.sorted_insertionSort dateKeyLE (buildDateMap sa.flatten)
    exact List.Pairwise.map Prod.fst (fun a b hab => hab) hsorted

theorem C10_witness :
    "2024-01-01" ∈ (aggregateSeries
        [[("2024-01-01", 1)], [("2024-01-01", 2)]]).map Prod.fst ∧
    ((aggregateSeries [[("2024-01-01", 1)], [("2024-01-01", 2)]]).map
        Prod.fst).Sorted (· ≤ ·) :=
  ⟨((C10_thm.2.2 [[("2024-01-01", 1)], [("2024-01-01", 2)]] (by decide)).2.1
      "2024-01-01").mpr (by decide),
   (C10_thm.2.2 [[("2024-01-01", 1)], [("2024-01-01", 2)]] (by decide)).2.2.2⟩

end Climetrica
